import Mathlib

/-
  Verification of the autolab-cli authenticated request engine
  (src/autolab_client.cpp, src/autolab_client.h).

  The embedding is shallow: each C++ function of the core is translated to
  an executable Lean definition.  Network traffic is modelled by oracles
  (functions from a call index to the response the remote service returns
  for that call), and rapidjson documents are modelled by the Json type
  below.  Every claim only ever inspects top-level members whose values the
  code reads with GetString, so a document is modelled as either a parsed
  JSON object holding a list of (name, value) members, where a value is a
  string or some other JSON value, or as a non-object parse result
  (covering parse failures and non-object roots alike).  Places where the
  C++ code would hit rapidjson undefined behavior (operator[] on an absent
  member, GetString on a non-string value, HasMember on a non-object
  document) are modelled as Option.none.
-/

namespace Autolab

/-- Value of a top-level JSON member: a string, or any other JSON value
(number, object, array, bool, null).  The code under verification only ever
reads members with GetString, so non-string values need no structure. -/
inductive JVal where
  | vstr : String → JVal
  | vother : JVal
deriving DecidableEq

/-- A parsed rapidjson document: an object with its ordered member list, or
any non-object parse result (parse error, array, scalar root). -/
inductive Json where
  | jobj : List (String × JVal) → Json
  | jnotObject : Json
deriving DecidableEq

/-- response.IsObject() -/
def Json.isObject : Json → Bool
  | .jobj _ => true
  | .jnotObject => false

/-- response.HasMember(k) on an object document. -/
def Json.member : Json → String → Option JVal
  | .jobj ms, k => ms.lookup k
  | .jnotObject, _ => none

/-- The private instance variables of class AutolabClient
(src/autolab_client.h). -/
structure Client where
  api_version : Nat
  client_id : String
  client_secret : String
  redirect_uri : String
  access_token : String
  refresh_token : String
  device_flow_device_code : String
  device_flow_user_code : String
deriving DecidableEq

/-- AutolabClient::clear_device_flow_strings -/
def clear_device_flow_strings (c : Client) : Client :=
  { c with device_flow_device_code := "", device_flow_user_code := "" }

/-- AutolabClient::save_tokens_from_response.  Checks HasMember for both
token members, then reads both with GetString and overwrites both session
token fields; returns false leaving the client untouched when either member
is absent.  GetString on a present non-string member, or HasMember on a
non-object document, is rapidjson undefined behavior, modelled as none. -/
def save_tokens_from_response (resp : Json) (c : Client) : Option (Bool × Client) :=
  match resp with
  | .jnotObject => none
  | .jobj ms =>
    match ms.lookup "access_token", ms.lookup "refresh_token" with
    | some av, some rv =>
      match av, rv with
      | .vstr a, .vstr r =>
        some (true, { c with access_token := a, refresh_token := r })
      | _, _ => none
    | _, _ => some (false, c)

/-- AutolabClient::get_token_from_authorization_code.  The network call it
makes (POST of the authorization_code grant to /oauth/token) is modelled by
passing the response of that call as the oracle argument exchResp; the code
argument only feeds the request parameters. -/
def get_token_from_authorization_code (exchResp : Json) (_authorization_code : String)
    (c : Client) : Option (Bool × Client) :=
  save_tokens_from_response exchResp c

/-- AutolabClient::perform_token_refresh.  As above, the response of the
refresh_token grant POST is the oracle argument. -/
def perform_token_refresh (resp : Json) (c : Client) : Option (Bool × Client) :=
  save_tokens_from_response resp c

/-- The constant device_flow_authorize_wait_duration (5 seconds). -/
def device_flow_authorize_wait_duration : Nat := 5

/-- Outcome of one run of device_flow_authorize: the returned int, the
client state on return, the number of polls of /oauth/device_flow_authorize
performed, and whether the authorization_code exchange call was made. -/
structure DFAResult where
  retval : Int
  client : Client
  pollCount : Nat
  exchangeCalled : Bool
deriving DecidableEq

/-- The polling loop of AutolabClient::device_flow_authorize.  Time model:
the steady clock reads 5 * i when poll i starts (json_request is treated as
instantaneous and each sleep_for advances the clock by exactly the 5-second
wait duration), so the loop guard t_now < t_end is 5 * i < timeout.  The
poll oracle gives the parsed response of poll i; exch is the response of the
token exchange.  none marks a run that reaches rapidjson undefined behavior
(the unguarded response accesses noted on each branch). -/
def dfa_go (polls : Nat → Json) (exch : Json) (timeout : Nat) (c : Client)
    (i : Nat) : Option DFAResult :=
  if h : device_flow_authorize_wait_duration * i < timeout then
    match polls i with
    | .jnotObject => none  -- HasMember on a non-object document: UB
    | .jobj ms =>
      match ms.lookup "code" with
      | some v =>
        match v with
        | .vstr code =>
          -- success: exchange the code, clear scratch state, return 0
          match get_token_from_authorization_code exch code c with
          | none => none  -- UB inside save_tokens_from_response
          | some (_, c1) => some ⟨0, clear_device_flow_strings c1, i + 1, true⟩
        | .vother => none  -- GetString on a non-string code member: UB
      | none =>
        -- source comment: there must be an error field then;
        -- response["error"] is read with no presence or type check
        match ms.lookup "error" with
        | none => none  -- operator[] on an absent member: UB
        | some (.vother) => none  -- GetString on a non-string value: UB
        | some (.vstr err) =>
          if err ≠ "authorization_pending" then
            some ⟨1, clear_device_flow_strings c, i + 1, false⟩
          else
            dfa_go polls exch timeout c (i + 1)
  else
    -- while loop exits: timed out, scratch state is NOT cleared here
    some ⟨-2, c, i, false⟩
termination_by timeout - device_flow_authorize_wait_duration * i
decreasing_by
  simp only [device_flow_authorize_wait_duration] at h ⊢
  omega

/-- AutolabClient::device_flow_authorize. -/
def device_flow_authorize (polls : Nat → Json) (exch : Json) (timeout : Nat)
    (c : Client) : Option DFAResult :=
  if c.device_flow_device_code.length = 0 then
    some ⟨-1, c, 0, false⟩
  else
    dfa_go polls exch timeout c 0

/-- A poll response on which the device_flow_authorize loop body performs
no undefined member access: an object that either carries a string code
member, or carries no code member and a string error member. -/
def pollResponseOK : Json → Bool
  | .jnotObject => false
  | .jobj ms =>
    match ms.lookup "code" with
    | some (.vstr _) => true
    | some .vother => false
    | none =>
      match ms.lookup "error" with
      | some (.vstr _) => true
      | _ => false

/-- A token-endpoint response on which save_tokens_from_response performs
no undefined access: an object whose two token members, when both present,
are both strings. -/
def tokenResponseOK : Json → Bool
  | .jnotObject => false
  | .jobj ms =>
    match ms.lookup "access_token", ms.lookup "refresh_token" with
    | some av, some rv =>
      match av, rv with
      | .vstr _, .vstr _ => true
      | _, _ => false
    | _, _ => true

/-
  Parameter codec (AutolabClient::construct_params and curl_easy_escape).
  Strings are modelled at the byte level, as lists of byte values, because
  curl_easy_escape works on the raw bytes of the value.
-/

/-- The bytes curl_easy_escape leaves unescaped: RFC 3986 unreserved
characters, namely the ASCII alphanumerics and the dash (45), dot (46),
underscore (95) and tilde (126). -/
def isUnreservedByte (b : Nat) : Bool :=
  (48 ≤ b && b ≤ 57) || (65 ≤ b && b ≤ 90) || (97 ≤ b && b ≤ 122) ||
  b == 45 || b == 46 || b == 95 || b == 126

/-- Uppercase hex digit byte of a nibble, as printf %X produces. -/
def hexDigitByte (n : Nat) : Nat :=
  if n < 10 then 48 + n else 55 + n

/-- curl_easy_escape: every byte that is not unreserved is replaced by a
percent sign (37) followed by the two uppercase hex digits of the byte. -/
def curl_easy_escape : List Nat → List Nat
  | [] => []
  | b :: rest =>
    (if isUnreservedByte b then [b]
     else [37, hexDigitByte (b / 16), hexDigitByte (b % 16)]) ++
    curl_easy_escape rest

/-- AutolabClient::request_param: an ordered key/value pair.  The
escaped_value pointer it also carries is the transport-allocated buffer
whose lifecycle is modelled separately below for the resource claims. -/
structure RequestParam where
  key : List Nat
  value : List Nat
deriving DecidableEq

/-- AutolabClient::construct_params: the loop appends key, equals sign (61),
the escaped value, and an ampersand (38) after every pair but the last. -/
def construct_params : List RequestParam → List Nat
  | [] => []
  | [p] => p.key ++ 61 :: curl_easy_escape p.value
  | p :: q :: rest =>
    p.key ++ 61 :: curl_easy_escape p.value ++ 38 :: construct_params (q :: rest)

/-
  The decoder is not part of this repository; the spec states the round-trip
  property against standard decoding of the produced
  application/x-www-form-urlencoded string.
-/

/-- Modelled from the spec: the value of one hex digit byte, accepting both
cases; the repository contains no decoder, so this follows the standard
percent-decoding the spec round-trip property appeals to. -/
def hexVal (b : Nat) : Option Nat :=
  if 48 ≤ b && b ≤ 57 then some (b - 48)
  else if 65 ≤ b && b ≤ 70 then some (b - 55)
  else if 97 ≤ b && b ≤ 102 then some (b - 87)
  else none

/-- Modelled from the spec: standard percent-decoding; a percent sign (37)
followed by two hex digits becomes the encoded byte, everything else is
copied through. -/
def percentDecode : List Nat → List Nat
  | [] => []
  | [b] => [b]
  | [b, h] => [b, h]
  | b :: h :: l :: rest =>
    if b = 37 then
      match hexVal h, hexVal l with
      | some hv, some lv => (16 * hv + lv) :: percentDecode rest
      | _, _ => b :: percentDecode (h :: l :: rest)
    else b :: percentDecode (h :: l :: rest)

/-- Modelled from the spec: split a query string at every ampersand (38). -/
def splitAmp : List Nat → List (List Nat)
  | [] => [[]]
  | b :: rest =>
    if b = 38 then [] :: splitAmp rest
    else
      match splitAmp rest with
      | [] => [[b]]
      | s :: ss => (b :: s) :: ss

/-- Modelled from the spec: split one segment at its first equals sign
(61). -/
def splitFirstEq : List Nat → List Nat × List Nat
  | [] => ([], [])
  | b :: rest =>
    if b = 61 then ([], rest)
    else
      let kv := splitFirstEq rest
      (b :: kv.1, kv.2)

/-- Modelled from the spec: decode an encoded query string back to its
ordered key/value pairs (standard application/x-www-form-urlencoded
decoding; the repository contains no decoder of its own). -/
def decodeQuery (s : List Nat) : List (List Nat × List Nat) :=
  if s = [] then []
  else
    (splitAmp s).map fun seg =>
      let kv := splitFirstEq seg
      (percentDecode kv.1, percentDecode kv.2)

/-
  Response classifier: header_callback and write_callback, modelled over
  lists of characters.  The ofstream the header callback opens is modelled
  by the file_open flag, the path it was opened at, and the bytes written
  to it; opening with the trunc flag empties file_data.
-/

/-- AutolabClient::request_state as the two libcurl callbacks use it. -/
structure CbState where
  is_download : Bool
  suggested_filename : List Char
  download_dir : List Char
  string_output : List Char
  file_open : Bool
  file_path : List Char
  file_data : List Char
deriving DecidableEq

/-- request_state(dir, name_hint): the two-argument constructor used by
download_request. -/
def CbState.mk0 (dir name_hint : List Char) : CbState :=
  { is_download := false
    suggested_filename := name_hint
    download_dir := dir
    string_output := []
    file_open := false
    file_path := []
    file_data := [] }

/-- request_state::consider_download -/
def CbState.consider_download (st : CbState) : Bool :=
  st.download_dir.length > 0

/-- std::string::find of a pattern: index of the first occurrence, none for
npos. -/
def findSub (pat s : List Char) : Option Nat :=
  (List.range (s.length + 1)).find? fun i => List.isPrefixOf pat (s.drop i)

/-- std::string::find of a single character from a start position: absolute
index of the first occurrence at or after start, none for npos. -/
def findCharFrom (ch : Char) (s : List Char) (start : Nat) : Option Nat :=
  match (s.drop start).findIdx? fun b => b == ch with
  | some j => some (start + j)
  | none => none

/-- header_callback (src/autolab_client.cpp): when consider_download holds
and the header line contains a Content-Disposition field, mark the response
as a download, extract the filename between the quote after filename= and
the next quote (the source skips 10 characters: the nine of filename= and
the opening quote), and open download_dir/suggested_filename truncated. -/
def header_callback (data : List Char) (st : CbState) : CbState :=
  if st.consider_download then
    if (findSub ("Content-Disposition:".toList) data).isSome then
      let st1 : CbState := { st with is_download := true }
      let st2 : CbState :=
        match findSub ("filename=".toList) data with
        | some name_start0 =>
          let name_start := name_start0 + 10
          match findCharFrom (Char.ofNat 34) data name_start with
          | some name_end =>
            { st1 with suggested_filename :=
                (data.drop name_start).take (name_end - name_start) }
          | none => st1
        | none => st1
      let full_filename := st2.download_dir ++ Char.ofNat 47 :: st2.suggested_filename
      { st2 with file_open := true, file_path := full_filename, file_data := [] }
    else st
  else st

/-- write_callback (src/autolab_client.cpp): append the chunk to the open
file when the response was classified as a download, to the string
accumulator otherwise. -/
def write_callback (data : List Char) (st : CbState) : CbState :=
  if st.is_download then { st with file_data := st.file_data ++ data }
  else { st with string_output := st.string_output ++ data }

/-- The claimed attachment header line. -/
def attachment_header : List Char :=
  "Content-Disposition: attachment; filename=\"handout.pdf\"".toList

/-- One transport response as the callbacks see it: libcurl delivers every
header line to header_callback, then every body chunk to write_callback. -/
def run_response (headers : List (List Char)) (body : List (List Char))
    (st : CbState) : CbState :=
  (headers.foldl (fun s h => header_callback h s) st
    |> body.foldl fun s d => write_callback d s)

/-
  Resource model for the per-parameter escaped buffers (claim about
  free_params and raw_request).  construct_params stores one
  curl_easy_escape allocation into each parameter; raw_request calls
  free_params after curl_easy_perform.  The heap tracks which buffer ids
  are live and how often each id has been freed.
-/

/-- Allocation state of the transport-allocated escaped buffers. -/
structure Heap where
  nextId : Nat
  live : List Nat
  freed : List Nat
deriving DecidableEq

def Heap.empty : Heap := ⟨0, [], []⟩

/-- One curl_easy_escape call: allocates a fresh buffer. -/
def Heap.alloc (h : Heap) : Heap × Nat :=
  ({ h with nextId := h.nextId + 1, live := h.nextId :: h.live }, h.nextId)

/-- One curl_free call. -/
def Heap.free (h : Heap) (id : Nat) : Heap :=
  { h with live := h.live.erase id, freed := id :: h.freed }

/-- How many times buffer id has been freed. -/
def Heap.freeCount (h : Heap) (id : Nat) : Nat :=
  h.freed.count id

/-- The allocations construct_params performs: one escaped buffer per
parameter, in order, stored in the escaped_value field of each. -/
def construct_params_alloc (h : Heap) (params : List RequestParam) :
    Heap × List Nat :=
  match params with
  | [] => (h, [])
  | _ :: rest =>
    let (h1, id) := h.alloc
    let (h2, ids) := construct_params_alloc h1 rest
    (h2, id :: ids)

/-- AutolabClient::free_params: curl_free on the escaped buffer of every
parameter. -/
def free_params (h : Heap) (ids : List Nat) : Heap :=
  ids.foldl Heap.free h

/-- Outcome of curl_easy_perform for one transport round-trip. -/
inductive TransportOutcome where
  | ok : Int → TransportOutcome
  | curlError : TransportOutcome
deriving DecidableEq

/-- The resource behavior of AutolabClient::raw_request: construct_params
allocates the escaped buffers, curl_easy_perform runs, err_assert inspects
its result, and only then does free_params run.

Modelled from the spec: err_assert lives in logger.h, which is not among
the given sources; per the spec, any transport-level failure is fatal and
aborts the call with a distinguishable error, so a failing
curl_easy_perform makes err_assert abort raw_request (the .error result)
at the point of the err_assert call, before free_params. -/
def raw_request_resources (h : Heap) (params : List RequestParam)
    (outcome : TransportOutcome) : Except Unit Int × Heap × List Nat :=
  let (h1, ids) := construct_params_alloc h params
  match outcome with
  | .curlError => (.error (), h1, ids)  -- err_assert aborts before free_params
  | .ok status => (.ok status, free_params h1 ids, ids)

/-
  Authenticated request orchestrator:
  AutolabClient::raw_request_optional_refresh.  The request_state is
  modelled at the document level: write_callback appends each response
  body to string_output, so the accumulator holds a list of appended
  response documents; rapidjson parses the concatenation of two documents
  (or an empty accumulator) as a non-object (root not singular / parse
  error), which is what parseAccum returns for anything but a single
  document.
-/

/-- The request-state sink as the orchestrator sees it. -/
structure RState where
  is_download : Bool
  chunks : List Json
  response_code : Int
deriving DecidableEq

/-- The request_state default constructor used by json_request. -/
def RState.init : RState := ⟨false, [], 0⟩

/-- request_state::reset: clears the download flag and the string
accumulator. -/
def RState.reset (rs : RState) : RState :=
  { rs with is_download := false, chunks := [] }

/-- rapidjson Parse of the accumulated string_output: a single appended
document parses as itself; an empty accumulator or the concatenation of
several documents fails to parse as an object. -/
def parseAccum : List Json → Json
  | [d] => d
  | _ => .jnotObject

/-- One response of the remote service: HTTP status and parsed body. -/
structure NetResponse where
  status : Int
  body : Json
deriving DecidableEq

/-- AutolabClient::raw_request at the orchestrator level: consumes the next
oracle response, appends its body to the accumulator, records the status
code and returns it. -/
def raw_request (oracle : Nat → NetResponse) (n : Nat) (rs : RState) :
    RState × Int :=
  let r := oracle n
  ({ rs with chunks := rs.chunks ++ [r.body], response_code := r.status }, r.status)

/-- The sentinel error body (oauth_auth_failed_response). -/
def oauth_auth_failed_response : String := "OAuth2 authorization failed"

/-- AutolabClient::document_has_error: false for downloads, otherwise parse
string_output and test IsObject, HasMember of error, IsString of it, and
equality with the message. -/
def document_has_error (rs : RState) (error_msg : String) : Bool :=
  if rs.is_download then false
  else
    match parseAccum rs.chunks with
    | .jobj ms =>
      match ms.lookup "error" with
      | some (.vstr s) => s == error_msg
      | _ => false
    | .jnotObject => false

/-- Observable events of one orchestrated call: a data-endpoint network
call with its index, the token-refresh attempt with its outcome, and the
request-state reset. -/
inductive Ev where
  | call : Nat → Ev
  | refreshAttempt : Bool → Ev
  | reset : Ev
deriving DecidableEq

/-- Number of data-endpoint network calls in a trace. -/
def callCount (tr : List Ev) : Nat :=
  (tr.filter fun e => match e with | .call _ => true | _ => false).length

/-- AutolabClient::raw_request_optional_refresh.  The data-endpoint oracle
gives the response of the n-th raw_request; refreshOk abstracts
perform_token_refresh to its boolean result (its own network call goes to
the token endpoint and is not a data-endpoint call).  The .error result is
the thrown InvalidTokenException. -/
def raw_request_optional_refresh (oracle : Nat → NetResponse)
    (refreshOk : Bool) (rs : RState) (refresh : Bool) :
    Except Unit (Int × RState) × List Ev :=
  let (rs1, rc1) := raw_request oracle 0 rs
  if ¬ refresh then (.ok (rc1, rs1), [.call 0])
  else if rc1 = 200 ∨ ¬ document_has_error rs1 oauth_auth_failed_response then
    (.ok (rc1, rs1), [.call 0])
  else if refreshOk then
    let rs2 := rs1.reset
    let (rs3, rc2) := raw_request oracle 1 rs2
    if rc2 = 200 ∨ ¬ document_has_error rs3 oauth_auth_failed_response then
      (.ok (rc2, rs3), [.call 0, .refreshAttempt true, .reset, .call 1])
    else
      (.error (), [.call 0, .refreshAttempt true, .reset, .call 1])
  else
    (.error (), [.call 0, .refreshAttempt false])

/-- IsObject, HasMember, IsString and comparison applied to one parsed
document (the body of a single response). -/
def json_has_error (j : Json) (msg : String) : Bool :=
  match j with
  | .jobj ms =>
    match ms.lookup "error" with
    | some (.vstr s) => s == msg
    | _ => false
  | .jnotObject => false

/-
  Theorems.
-/

lemma document_has_error_single (j : Json) (rc : Int) (msg : String) :
    document_has_error ⟨false, [j], rc⟩ msg = json_has_error j msg := rfl

/-- C3: device_flow_authorize before device_flow_init (stored device_code
empty) returns the distinct not-initialized outcome -1, performs zero polls
of the authorize endpoint and no token exchange, and leaves the client
unchanged. -/
theorem device_flow_authorize_requires_init (polls : Nat → Json) (exch : Json)
    (timeout : Nat) (c : Client) (h : c.device_flow_device_code = "") :
    device_flow_authorize polls exch timeout c = some ⟨-1, c, 0, false⟩ := by
  simp [device_flow_authorize, h]

theorem device_flow_authorize_requires_init_witness :
    device_flow_authorize (fun _ => .jnotObject) .jnotObject 30
      ⟨1, "id", "secret", "uri", "", "", "", ""⟩ =
      some ⟨-1, ⟨1, "id", "secret", "uri", "", "", "", ""⟩, 0, false⟩ :=
  device_flow_authorize_requires_init _ _ _ _ rfl

/-- C6: a token exchange or refresh saves both tokens and returns true
exactly when both token members are present (as strings) in the response;
when either member is absent it returns false and leaves both session token
fields untouched. -/
theorem token_save_wholesale (ms : List (String × JVal)) (c : Client) :
    (∀ a r, ms.lookup "access_token" = some (.vstr a) →
        ms.lookup "refresh_token" = some (.vstr r) →
        perform_token_refresh (.jobj ms) c =
          some (true, { c with access_token := a, refresh_token := r })) ∧
    ((ms.lookup "access_token" = none ∨ ms.lookup "refresh_token" = none) →
        perform_token_refresh (.jobj ms) c = some (false, c)) ∧
    (∀ c1, perform_token_refresh (.jobj ms) c = some (true, c1) →
        ∃ a r, ms.lookup "access_token" = some (.vstr a) ∧
          ms.lookup "refresh_token" = some (.vstr r) ∧
          c1 = { c with access_token := a, refresh_token := r }) := by
  refine ⟨fun a r ha hr => ?_, fun habs => ?_, fun c1 hsome => ?_⟩
  · simp [perform_token_refresh, save_tokens_from_response, ha, hr]
  · rcases habs with h | h <;>
      simp [perform_token_refresh, save_tokens_from_response, h]
  · revert hsome
    unfold perform_token_refresh save_tokens_from_response
    rcases ha : ms.lookup "access_token" with _ | av
    · simp [ha]
    · rcases hr : ms.lookup "refresh_token" with _ | rv
      · simp [ha, hr]
      · rcases av with a | _
        · rcases rv with r | _
          · simp only [ha, hr]
            intro hc1
            exact ⟨a, r, rfl, rfl, (Prod.mk.injEq _ _ _ _ ▸ Option.some.inj hc1).2.symm⟩
          · simp [ha, hr]
        · simp [ha, hr]

theorem token_save_wholesale_witness :
    perform_token_refresh
        (.jobj [("access_token", .vstr "A2"), ("refresh_token", .vstr "R2")])
        ⟨1, "id", "s", "u", "A1", "R1", "", ""⟩ =
      some (true, ⟨1, "id", "s", "u", "A2", "R2", "", ""⟩) ∧
    perform_token_refresh (.jobj [("token_type", .vother)])
        ⟨1, "id", "s", "u", "A1", "R1", "", ""⟩ =
      some (false, ⟨1, "id", "s", "u", "A1", "R1", "", ""⟩) :=
  ⟨(token_save_wholesale _ _).1 "A2" "R2" (by decide) (by decide),
   (token_save_wholesale _ _).2.1 (Or.inl (by decide))⟩

/-- C1: a call with refresh allowed whose first round-trip yields the
sentinel auth-failure body and a non-200 status, followed by a successful
token refresh, resets the request-state sink, reissues the identical
request exactly once (two data-endpoint network calls in total, the
original and one retry), and returns the result of that second round-trip
whenever it is not again a sentinel failure. -/
theorem authenticatedCall_refresh_retries_once (oracle : Nat → NetResponse)
    (h200 : (oracle 0).status ≠ 200)
    (hsent : json_has_error (oracle 0).body oauth_auth_failed_response = true) :
    (raw_request_optional_refresh oracle true RState.init true).2 =
      [.call 0, .refreshAttempt true, .reset, .call 1] ∧
    callCount (raw_request_optional_refresh oracle true RState.init true).2 = 2 ∧
    ((oracle 1).status = 200 ∨
        json_has_error (oracle 1).body oauth_auth_failed_response = false →
      (raw_request_optional_refresh oracle true RState.init true).1 =
        .ok ((oracle 1).status, ⟨false, [(oracle 1).body], (oracle 1).status⟩)) := by
  unfold raw_request_optional_refresh raw_request RState.init RState.reset
  simp only [List.nil_append, document_has_error_single]
  refine ⟨?_, ?_, ?_⟩
  · simp [h200, hsent]
    split <;> rfl
  · simp [h200, hsent]
    split <;> simp [callCount]
  · intro hgood
    simp [h200, hsent, hgood]

theorem authenticatedCall_refresh_retries_once_witness :
    (raw_request_optional_refresh
        (fun n => if n = 0
          then ⟨500, .jobj [("error", .vstr "OAuth2 authorization failed")]⟩
          else ⟨200, .jobj [("user", .vother)]⟩)
        true RState.init true).2 =
      [.call 0, .refreshAttempt true, .reset, .call 1] ∧
    (raw_request_optional_refresh
        (fun n => if n = 0
          then ⟨500, .jobj [("error", .vstr "OAuth2 authorization failed")]⟩
          else ⟨200, .jobj [("user", .vother)]⟩)
        true RState.init true).1 =
      .ok (200, ⟨false, [.jobj [("user", .vother)]], 200⟩) :=
  ⟨(authenticatedCall_refresh_retries_once _ (by decide) (by decide)).1,
   (authenticatedCall_refresh_retries_once _ (by decide) (by decide)).2.2
     (Or.inl (by decide))⟩

/-- C2: a call with refresh allowed whose first round-trip yields the
sentinel auth-failure body and a non-200 status fails with the
InvalidTokenException when the refresh fails (one network call, no retry)
or when the single retry again yields a sentinel non-200 response (two
network calls, never a third). -/
theorem authenticatedCall_invalid_token (oracle : Nat → NetResponse)
    (refreshOk : Bool)
    (h200 : (oracle 0).status ≠ 200)
    (hsent : json_has_error (oracle 0).body oauth_auth_failed_response = true) :
    (refreshOk = false →
      raw_request_optional_refresh oracle refreshOk RState.init true =
        (.error (), [.call 0, .refreshAttempt false])) ∧
    (refreshOk = true → (oracle 1).status ≠ 200 →
      json_has_error (oracle 1).body oauth_auth_failed_response = true →
      raw_request_optional_refresh oracle refreshOk RState.init true =
        (.error (), [.call 0, .refreshAttempt true, .reset, .call 1])) := by
  unfold raw_request_optional_refresh raw_request RState.init RState.reset
  simp only [List.nil_append, document_has_error_single]
  constructor
  · intro hrf; subst hrf; simp [h200, hsent]
  · intro hrf h200b hsentb; subst hrf; simp [h200, hsent, h200b, hsentb]

theorem authenticatedCall_invalid_token_witness :
    raw_request_optional_refresh
        (fun _ => ⟨500, .jobj [("error", .vstr "OAuth2 authorization failed")]⟩)
        false RState.init true =
      (.error (), [.call 0, .refreshAttempt false]) ∧
    raw_request_optional_refresh
        (fun _ => ⟨500, .jobj [("error", .vstr "OAuth2 authorization failed")]⟩)
        true RState.init true =
      (.error (), [.call 0, .refreshAttempt true, .reset, .call 1]) :=
  ⟨(authenticatedCall_invalid_token _ false (by decide) (by decide)).1 rfl,
   (authenticatedCall_invalid_token _ true (by decide) (by decide)).2 rfl
     (by decide) (by decide)⟩

/-- C8 (code as it stands, at the failing input): one parameter, transport
fails.  construct_params allocated the escaped buffer (id 0), err_assert
aborts the call, and free_params never runs: the buffer is still live and
its free count is 0, where the claim requires exactly one release on every
exit path. -/
theorem escaped_buffers_leak_on_transport_error :
    (raw_request_resources Heap.empty [⟨[97], [32]⟩] .curlError).1 = .error () ∧
    (raw_request_resources Heap.empty [⟨[97], [32]⟩] .curlError).2.2 = [0] ∧
    ((raw_request_resources Heap.empty [⟨[97], [32]⟩] .curlError).2.1).freeCount 0 = 0 ∧
    ((raw_request_resources Heap.empty [⟨[97], [32]⟩] .curlError).2.1).live = [0] :=
  ⟨rfl, rfl, rfl, rfl⟩

lemma string_length_zero {s : String} (h : s.length = 0) : s = "" := by
  rcases s with ⟨data⟩
  simp only [String.length] at h
  rw [List.length_eq_zero] at h
  simp [h]

lemma dfa_go_pending_advance (polls : Nat → Json) (exch : Json) (timeout : Nat)
    (c : Client) (i : Nat)
    (hp : polls i = .jobj [("error", .vstr "authorization_pending")])
    (hlt : device_flow_authorize_wait_duration * i < timeout) :
    dfa_go polls exch timeout c i = dfa_go polls exch timeout c (i + 1) := by
  rw [dfa_go]
  simp [hlt, hp, List.lookup]

lemma dfa_go_pending_range (polls : Nat → Json) (exch : Json) (timeout : Nat)
    (c : Client) (N : Nat)
    (hp : ∀ j < N, polls j = .jobj [("error", .vstr "authorization_pending")])
    (hN : device_flow_authorize_wait_duration * N < timeout) :
    dfa_go polls exch timeout c 0 = dfa_go polls exch timeout c N := by
  have H : ∀ k, k ≤ N →
      dfa_go polls exch timeout c 0 = dfa_go polls exch timeout c k := by
    intro k
    induction k with
    | zero => intro _; rfl
    | succ k ih =>
      intro hk
      rw [ih (Nat.le_of_succ_le hk), dfa_go_pending_advance]
      · exact hp k (Nat.lt_of_succ_le hk)
      · have hk5 : k < N := Nat.lt_of_succ_le hk
        simp only [device_flow_authorize_wait_duration] at hN ⊢
        omega
  exact H N le_rfl

lemma dfa_go_client_inv (polls : Nat → Json) (exch : Json) (timeout : Nat)
    (c : Client) (i : Nat) (res : DFAResult)
    (h : dfa_go polls exch timeout c i = some res) :
    ((res.retval = 0 ∨ res.retval = 1) →
      res.client.device_flow_device_code = "" ∧
      res.client.device_flow_user_code = "") ∧
    ((res.retval = -1 ∨ res.retval = -2) → res.client = c) := by
  revert h
  have IND := dfa_go.induct polls exch timeout c
  induction i using IND with
  | case1 x hlt hp =>
    intro h
    rw [dfa_go] at h
    simp [hlt, hp] at h
  | case2 x hlt ms hp code hex hcode =>
    intro h
    rw [dfa_go] at h
    simp [hlt, hp, hcode, hex] at h
  | case3 x hlt ms hp code b c1 hex hcode =>
    intro h
    rw [dfa_go] at h
    simp [hlt, hp, hcode, hex] at h
    subst h
    simp [clear_device_flow_strings]
  | case4 x hlt ms hp hcode =>
    intro h
    rw [dfa_go] at h
    simp [hlt, hp, hcode] at h
  | case5 x hlt ms hp hcode herr =>
    intro h
    rw [dfa_go] at h
    simp [hlt, hp, hcode, herr] at h
  | case6 x hlt ms hp hcode herr =>
    intro h
    rw [dfa_go] at h
    simp [hlt, hp, hcode, herr] at h
  | case7 x hlt ms hp hcode err herr hne =>
    intro h
    rw [dfa_go] at h
    simp [hlt, hp, hcode, herr, hne] at h
    subst h
    simp [clear_device_flow_strings]
  | case8 x hlt ms hp hcode err herr hne ih =>
    intro h
    rw [dfa_go] at h
    simp [hlt, hp, hcode, herr, hne] at h
    exact ih h
  | case9 x hlt =>
    intro h
    rw [dfa_go] at h
    simp [hlt] at h
    subst h
    simp

/-- C4 as written is refuted by the timeout path: with the device code set,
a pending first poll and a 3-second timeout, device_flow_authorize reaches
the timed-out terminal outcome (-2) with the device-flow scratch device
code still holding its value, not cleared. -/
theorem device_flow_timeout_keeps_scratch_counterexample :
    device_flow_authorize (fun _ => .jobj [("error", .vstr "authorization_pending")])
        .jnotObject 3 ⟨1, "", "", "", "", "", "dc", ""⟩ =
      some ⟨-2, ⟨1, "", "", "", "", "", "dc", ""⟩, 1, false⟩ ∧
    ("dc" : String) ≠ "" := by
  constructor
  · rw [device_flow_authorize, if_neg (by decide)]
    rw [dfa_go]
    norm_num [device_flow_authorize_wait_duration]
    rw [dfa_go]
    norm_num [device_flow_authorize_wait_duration]
    decide
  · decide

/-- C4 amended: the device-flow scratch fields are cleared on the success
and denial terminal outcomes; on the timed-out outcome (and on the
not-initialized outcome) the call returns with the client, scratch fields
included, unchanged. -/
theorem device_flow_scratch_cleared_amended (polls : Nat → Json) (exch : Json)
    (timeout : Nat) (c : Client) (res : DFAResult)
    (h : device_flow_authorize polls exch timeout c = some res) :
    ((res.retval = 0 ∨ res.retval = 1) →
      res.client.device_flow_device_code = "" ∧
      res.client.device_flow_user_code = "") ∧
    ((res.retval = -1 ∨ res.retval = -2) → res.client = c) := by
  unfold device_flow_authorize at h
  split at h
  · rw [Option.some.injEq] at h
    subst h
    refine ⟨fun h01 => ?_, fun _ => rfl⟩
    rcases h01 with h0 | h0 <;> simp at h0
  · exact dfa_go_client_inv polls exch timeout c 0 res h

theorem device_flow_scratch_cleared_amended_witness :
    (DFAResult.mk 1 ⟨1, "", "", "", "", "", "", ""⟩ 1 false).client.device_flow_device_code = "" ∧
    (DFAResult.mk 1 ⟨1, "", "", "", "", "", "", ""⟩ 1 false).client.device_flow_user_code = "" :=
  (device_flow_scratch_cleared_amended
      (fun _ => .jobj [("error", .vstr "access_denied")]) .jnotObject 30
      ⟨1, "", "", "", "", "", "dc", ""⟩ _
      (by
        rw [device_flow_authorize, if_neg (by decide)]
        rw [dfa_go]
        norm_num [device_flow_authorize_wait_duration]
        decide)).1 (Or.inr rfl)

/-- C5: with N pending poll responses followed by one carrying a code, a
timeout covering all N+1 polls, and a code exchange answering with both
tokens, device_flow_authorize performs exactly N+1 polls (poll i starting
at time wait_duration * i, successive polls separated by the 5-second wait
duration), exchanges the final code, returns 0, and populates both session
token fields from the exchange while clearing the scratch fields. -/
theorem device_flow_polling_loop (polls : Nat → Json) (N timeout : Nat)
    (c : Client) (code a r : String)
    (hc : c.device_flow_device_code ≠ "")
    (hpend : ∀ j < N, polls j = .jobj [("error", .vstr "authorization_pending")])
    (hcode : polls N = .jobj [("code", .vstr code)])
    (htime : device_flow_authorize_wait_duration * N < timeout) :
    device_flow_authorize polls
        (.jobj [("access_token", .vstr a), ("refresh_token", .vstr r)]) timeout c =
      some ⟨0,
            { c with
                access_token := a, refresh_token := r,
                device_flow_device_code := "", device_flow_user_code := "" },
            N + 1, true⟩ ∧
    5 ≤ device_flow_authorize_wait_duration := by
  refine ⟨?_, le_refl _⟩
  unfold device_flow_authorize
  rw [if_neg (fun h0 => hc (string_length_zero h0))]
  rw [dfa_go_pending_range polls _ timeout c N hpend htime]
  rw [dfa_go]
  simp [htime, hcode, List.lookup, get_token_from_authorization_code,
    save_tokens_from_response, clear_device_flow_strings]

theorem device_flow_polling_loop_witness :
    device_flow_authorize
        (fun i => if i = 0 then .jobj [("error", .vstr "authorization_pending")]
                  else .jobj [("code", .vstr "XYZ")])
        (.jobj [("access_token", .vstr "A"), ("refresh_token", .vstr "R")]) 6
        ⟨1, "id", "s", "u", "", "", "dc", ""⟩ =
      some ⟨0, ⟨1, "id", "s", "u", "A", "R", "", ""⟩, 2, true⟩ ∧
    5 ≤ device_flow_authorize_wait_duration :=
  device_flow_polling_loop _ 1 6 _ "XYZ" "A" "R" (by decide) (by decide) (by decide)
    (by decide)

lemma save_tokens_total (exch : Json) (c : Client)
    (hex : tokenResponseOK exch = true) :
    (save_tokens_from_response exch c).isSome := by
  rcases exch with ms | _
  · unfold tokenResponseOK at hex
    unfold save_tokens_from_response
    rcases ha : ms.lookup "access_token" with _ | av <;>
      rcases hr : ms.lookup "refresh_token" with _ | rv <;>
      simp [ha, hr] at hex ⊢
    rcases av with a | _ <;> rcases rv with r | _ <;> simp_all
  · simp [tokenResponseOK] at hex

lemma dfa_go_total (polls : Nat → Json) (exch : Json) (timeout : Nat) (c : Client)
    (hwf : ∀ j, pollResponseOK (polls j) = true)
    (hex : tokenResponseOK exch = true) (i : Nat) :
    (dfa_go polls exch timeout c i).isSome := by
  have IND := dfa_go.induct polls exch timeout c
  induction i using IND with
  | case1 x hlt hp =>
    have hx := hwf x
    rw [hp] at hx
    simp [pollResponseOK] at hx
  | case2 x hlt ms hp code hexn hcode =>
    have hs := save_tokens_total exch c hex
    rw [show save_tokens_from_response exch c =
          get_token_from_authorization_code exch code c from rfl, hexn] at hs
    simp at hs
  | case3 x hlt ms hp code b c1 hexc hcode =>
    rw [dfa_go]
    simp [hlt, hp, hcode, hexc]
  | case4 x hlt ms hp hcode =>
    have hx := hwf x
    rw [hp] at hx
    simp [pollResponseOK, hcode] at hx
  | case5 x hlt ms hp hcode herr =>
    have hx := hwf x
    rw [hp] at hx
    simp [pollResponseOK, hcode, herr] at hx
  | case6 x hlt ms hp hcode herr =>
    have hx := hwf x
    rw [hp] at hx
    simp [pollResponseOK, hcode, herr] at hx
  | case7 x hlt ms hp hcode err herr hne =>
    rw [dfa_go]
    simp [hlt, hp, hcode, herr, hne]
  | case8 x hlt ms hp hcode err herr hne ih =>
    rw [dfa_go]
    simpa [hlt, hp, hcode, herr, hne] using ih
  | case9 x hlt =>
    rw [dfa_go]
    simp [hlt]

/-- C10: in the polling loop every non-code poll response has its error
member read without presence or type check.  The loop body is total when
every poll response carries a string code member or, lacking one, a string
error member (and the token exchange response is well formed), and a poll
response containing neither member drives the loop into the unguarded
response["error"] access, the undefined behavior marked none in the
embedding. -/
theorem poll_error_access_unguarded :
    (∀ (polls : Nat → Json) (exch : Json) (timeout : Nat) (c : Client),
      (∀ j, pollResponseOK (polls j) = true) → tokenResponseOK exch = true →
      (device_flow_authorize polls exch timeout c).isSome) ∧
    device_flow_authorize (fun _ => .jobj [("status", .vother)]) .jnotObject 30
      ⟨1, "", "", "", "", "", "dc", ""⟩ = none := by
  constructor
  · intro polls exch timeout c hwf hex
    unfold device_flow_authorize
    split
    · simp
    · exact dfa_go_total polls exch timeout c hwf hex 0
  · rw [device_flow_authorize, if_neg (by decide)]
    rw [dfa_go]
    norm_num [device_flow_authorize_wait_duration]
    decide

theorem poll_error_access_unguarded_witness :
    (device_flow_authorize (fun _ => .jobj [("error", .vstr "access_denied")])
      (.jobj [("access_token", .vstr "A"), ("refresh_token", .vstr "R")]) 8
      ⟨1, "", "", "", "", "", "dc", ""⟩).isSome :=
  poll_error_access_unguarded.1 _ _ 8 _ (fun _ => rfl) rfl

lemma header_callback_no_cd (data : List Char) (st : CbState)
    (hn : findSub ("Content-Disposition:".toList) data = none) :
    header_callback data st = st := by
  unfold header_callback
  rw [hn]
  simp

lemma fold_headers_no_cd (hs : List (List Char)) (st : CbState)
    (hno : ∀ h ∈ hs, findSub ("Content-Disposition:".toList) h = none) :
    hs.foldl (fun s h => header_callback h s) st = st := by
  induction hs generalizing st with
  | nil => rfl
  | cons h hs ih =>
    simp only [List.foldl_cons]
    rw [header_callback_no_cd h st (hno h (List.mem_cons_self _ _))]
    exact ih st fun g hg => hno g (List.mem_cons_of_mem _ hg)

lemma header_callback_attachment (st : CbState)
    (hcd : st.consider_download = true) :
    header_callback attachment_header st =
      { st with
          is_download := true
          suggested_filename := "handout.pdf".toList
          file_open := true
          file_path := st.download_dir ++ Char.ofNat 47 :: "handout.pdf".toList
          file_data := [] } := by
  unfold header_callback
  rw [hcd]
  rw [show findSub ("Content-Disposition:".toList) attachment_header = some 0 from by decide]
  rw [show findSub ("filename=".toList) attachment_header = some 33 from by decide]
  dsimp only
  rw [show findCharFrom (Char.ofNat 34) attachment_header (33 + 10) = some 54 from by decide]
  dsimp only
  rw [show (attachment_header.drop (33 + 10)).take (54 - (33 + 10)) =
        "handout.pdf".toList from by decide]
  simp

lemma fold_write_download (body : List (List Char)) (st : CbState)
    (hdl : st.is_download = true) :
    body.foldl (fun s d => write_callback d s) st =
      { st with file_data := st.file_data ++ body.flatten } := by
  induction body generalizing st with
  | nil => simp
  | cons d body ih =>
    simp only [List.foldl_cons]
    rw [show write_callback d st = { st with file_data := st.file_data ++ d } from by
      unfold write_callback; rw [hdl]; simp]
    rw [ih _ (by simp [hdl])]
    simp [List.append_assoc]

/-- C9: with download mode enabled (non-empty target directory), a response
whose headers carry the attachment Content-Disposition line with filename
handout.pdf is classified as a download: the callbacks open (truncated) the
file handout.pdf in the target directory, stream exactly the body bytes
into it, and leave the string accumulator empty. -/
theorem download_attachment_classification (dir hint : List Char)
    (hdir : dir ≠ []) (hs1 hs2 body : List (List Char))
    (hno1 : ∀ h ∈ hs1, findSub ("Content-Disposition:".toList) h = none)
    (hno2 : ∀ h ∈ hs2, findSub ("Content-Disposition:".toList) h = none) :
    run_response (hs1 ++ attachment_header :: hs2) body (CbState.mk0 dir hint) =
      { is_download := true
        suggested_filename := "handout.pdf".toList
        download_dir := dir
        string_output := []
        file_open := true
        file_path := dir ++ Char.ofNat 47 :: "handout.pdf".toList
        file_data := body.flatten } := by
  unfold run_response
  rw [List.foldl_append]
  rw [fold_headers_no_cd hs1 _ hno1]
  simp only [List.foldl_cons]
  rw [header_callback_attachment (CbState.mk0 dir hint)
    (by simp [CbState.consider_download, CbState.mk0, List.length_pos, hdir])]
  rw [fold_headers_no_cd hs2 _ hno2]
  rw [fold_write_download body _ rfl]
  simp [CbState.mk0]

theorem download_attachment_classification_witness :
    run_response
        ["HTTP/1.1 200 OK".toList, attachment_header, "Content-Length: 6".toList]
        ["abc".toList, "def".toList] (CbState.mk0 "dl".toList "handout".toList) =
      { is_download := true
        suggested_filename := "handout.pdf".toList
        download_dir := "dl".toList
        string_output := []
        file_open := true
        file_path := "dl/handout.pdf".toList
        file_data := "abcdef".toList } := by
  have h := download_attachment_classification "dl".toList "handout".toList
    (by decide) ["HTTP/1.1 200 OK".toList] ["Content-Length: 6".toList]
    ["abc".toList, "def".toList] (by decide) (by decide)
  simpa using h

lemma hexDigitByte_spec (n : Nat) (h : n < 16) :
    hexVal (hexDigitByte n) = some n ∧ hexDigitByte n ≠ 37 ∧
    hexDigitByte n ≠ 38 ∧ hexDigitByte n ≠ 61 := by
  interval_cases n <;> exact ⟨rfl, by decide, by decide, by decide⟩

lemma unreserved_ne (b : Nat) (h : isUnreservedByte b = true) :
    b ≠ 37 ∧ b ≠ 38 ∧ b ≠ 61 := by
  simp only [isUnreservedByte, Bool.or_eq_true, Bool.and_eq_true,
    decide_eq_true_eq, beq_iff_eq] at h
  rcases h with h | h | h | h | h | h | h <;> omega

lemma escape_mem_ne (v : List Nat) (hv : ∀ b ∈ v, b < 256) :
    ∀ x ∈ curl_easy_escape v, x ≠ 38 ∧ x ≠ 61 := by
  induction v with
  | nil => simp [curl_easy_escape]
  | cons b rest ih =>
    intro x hx
    have hb : b < 256 := hv b (List.mem_cons_self _ _)
    have ih2 := ih fun y hy => hv y (List.mem_cons_of_mem _ hy)
    simp only [curl_easy_escape] at hx
    rw [List.mem_append] at hx
    rcases hx with h1 | h2
    · by_cases hu : isUnreservedByte b = true
      · rw [if_pos hu] at h1
        rcases List.mem_singleton.mp h1 with rfl
        exact ⟨(unreserved_ne x hu).2.1, (unreserved_ne x hu).2.2⟩
      · rw [if_neg hu] at h1
        have hd1 : b / 16 < 16 := by omega
        have hd2 : b % 16 < 16 := by omega
        rcases h1 with _ | ⟨_, h1⟩
        · exact ⟨by decide, by decide⟩
        · rcases h1 with _ | ⟨_, h1⟩
          · exact ⟨(hexDigitByte_spec _ hd1).2.2.1, (hexDigitByte_spec _ hd1).2.2.2⟩
          · rcases h1 with _ | ⟨_, h1⟩
            · exact ⟨(hexDigitByte_spec _ hd2).2.2.1, (hexDigitByte_spec _ hd2).2.2.2⟩
            · cases h1
    · exact ih2 x h2

lemma percentDecode_cons_ne (b : Nat) (t : List Nat) (hb : b ≠ 37) :
    percentDecode (b :: t) = b :: percentDecode t := by
  match t with
  | [] => rfl
  | [h] => rfl
  | h :: l :: rest => simp [percentDecode, hb]

lemma percentDecode_escape (v : List Nat) (hv : ∀ b ∈ v, b < 256) :
    percentDecode (curl_easy_escape v) = v := by
  induction v with
  | nil => rfl
  | cons b rest ih =>
    have hb : b < 256 := hv b (List.mem_cons_self _ _)
    have ih2 := ih fun y hy => hv y (List.mem_cons_of_mem _ hy)
    simp only [curl_easy_escape]
    by_cases hu : isUnreservedByte b = true
    · rw [if_pos hu, List.singleton_append,
        percentDecode_cons_ne b _ (unreserved_ne b hu).1, ih2]
    · rw [if_neg hu]
      have hd1 : b / 16 < 16 := by omega
      have hd2 : b % 16 < 16 := by omega
      have hhd := (hexDigitByte_spec _ hd1).1
      have hld := (hexDigitByte_spec _ hd2).1
      simp only [List.cons_append, List.nil_append]
      rw [show percentDecode
            (37 :: hexDigitByte (b / 16) :: hexDigitByte (b % 16) ::
              curl_easy_escape rest) =
          (16 * (b / 16) + b % 16) :: percentDecode (curl_easy_escape rest) from by
        simp [percentDecode, hhd, hld]]
      rw [ih2]
      congr 1
      omega

lemma percentDecode_no_percent (k : List Nat) (h : 37 ∉ k) :
    percentDecode k = k := by
  induction k with
  | nil => rfl
  | cons b t ih =>
    rw [percentDecode_cons_ne b t
      fun hb => h (by rw [hb] at *; exact List.mem_cons_self _ _)]
    rw [ih fun hm => h (List.mem_cons_of_mem _ hm)]

lemma splitAmp_no_amp (s : List Nat) (h : 38 ∉ s) : splitAmp s = [s] := by
  induction s with
  | nil => rfl
  | cons b t ih =>
    simp only [splitAmp]
    rw [if_neg fun hb => h (by rw [hb] at *; exact List.mem_cons_self _ _)]
    rw [ih fun hm => h (List.mem_cons_of_mem _ hm)]

lemma splitAmp_append (s rest : List Nat) (h : 38 ∉ s) :
    splitAmp (s ++ 38 :: rest) = s :: splitAmp rest := by
  induction s with
  | nil => simp [splitAmp]
  | cons b t ih =>
    simp only [List.cons_append, splitAmp, List.append_eq]
    rw [if_neg fun hb => h (by rw [hb] at *; exact List.mem_cons_self _ _)]
    rw [ih fun hm => h (List.mem_cons_of_mem _ hm)]

lemma splitFirstEq_append (k v : List Nat) (h : 61 ∉ k) :
    splitFirstEq (k ++ 61 :: v) = (k, v) := by
  induction k with
  | nil => simp [splitFirstEq]
  | cons b t ih =>
    simp only [List.cons_append, splitFirstEq, List.append_eq]
    rw [if_neg fun hb => h (by rw [hb] at *; exact List.mem_cons_self _ _)]
    rw [ih fun hm => h (List.mem_cons_of_mem _ hm)]

lemma construct_params_ne_nil (p : RequestParam) (ps : List RequestParam) :
    construct_params (p :: ps) ≠ [] := by
  cases ps <;> simp [construct_params]

/-- C7 as written (round trip for every ordered parameter list) fails when
a key contains a byte the encoding leaves unprotected: the single pair with
key consisting of the ampersand byte and empty value encodes to the two
bytes ampersand equals, which decodes to two empty pairs, not the original
pair (keys are never escaped, so a separator byte in a key corrupts the
encoded string structure). -/
theorem construct_params_roundtrip_counterexample :
    decodeQuery (construct_params [⟨[38], []⟩]) ≠
      ([⟨[38], []⟩] : List RequestParam).map fun p => (p.key, p.value) := by
  decide

/-- C7 amended: the codec emits key, equals sign, independently
percent-encoded value (RFC 3986 unreserved bytes kept, every other byte
escaped as percent and two uppercase hex digits), pairs joined by
ampersands, keys never escaped; decoding the encoded string reproduces the
original key/value pairs in order, for every parameter list whose keys
contain none of the bytes the encoded structure reserves (ampersand,
equals, percent). -/
theorem construct_params_roundtrip (ps : List RequestParam)
    (hkeys : ∀ p ∈ ps, ∀ b ∈ p.key, b ≠ 38 ∧ b ≠ 61 ∧ b ≠ 37)
    (hvals : ∀ p ∈ ps, ∀ b ∈ p.value, b < 256) :
    decodeQuery (construct_params ps) = ps.map fun p => (p.key, p.value) := by
  induction ps with
  | nil => rfl
  | cons p ps ih =>
    have hkp := hkeys p (List.mem_cons_self _ _)
    have hvp := hvals p (List.mem_cons_self _ _)
    have hkey38 : 38 ∉ p.key := fun hm => (hkp 38 hm).1 rfl
    have hkey61 : 61 ∉ p.key := fun hm => (hkp 61 hm).2.1 rfl
    have hkey37 : 37 ∉ p.key := fun hm => (hkp 37 hm).2.2 rfl
    have hseg38 : 38 ∉ p.key ++ 61 :: curl_easy_escape p.value := by
      intro hm
      rcases List.mem_append.mp hm with h1 | h2
      · exact hkey38 h1
      · rcases List.mem_cons.mp h2 with h3 | h3
        · exact absurd h3 (by decide)
        · exact (escape_mem_ne p.value hvp 38 h3).1 rfl
    cases ps with
    | nil =>
      show decodeQuery (p.key ++ 61 :: curl_easy_escape p.value) = _
      rw [decodeQuery, if_neg (by simp)]
      rw [splitAmp_no_amp _ hseg38]
      simp only [List.map_cons, List.map_nil]
      rw [splitFirstEq_append _ _ hkey61]
      simp only [percentDecode_no_percent _ hkey37, percentDecode_escape _ hvp]
    | cons q rest =>
      have hshape : construct_params (p :: q :: rest) =
          (p.key ++ 61 :: curl_easy_escape p.value) ++
            38 :: construct_params (q :: rest) := by
        simp only [construct_params]
      rw [hshape, decodeQuery, if_neg (by simp)]
      rw [splitAmp_append _ _ hseg38]
      simp only [List.map_cons]
      rw [splitFirstEq_append _ _ hkey61]
      have hne := construct_params_ne_nil q rest
      have hdq : decodeQuery (construct_params (q :: rest)) =
          (splitAmp (construct_params (q :: rest))).map fun seg =>
            let kv := splitFirstEq seg
            (percentDecode kv.1, percentDecode kv.2) := by
        rw [decodeQuery, if_neg hne]
      rw [← hdq,
        ih (fun r hr => hkeys r (List.mem_cons_of_mem _ hr))
           (fun r hr => hvals r (List.mem_cons_of_mem _ hr))]
      simp only [percentDecode_no_percent _ hkey37, percentDecode_escape _ hvp]
      simp

theorem construct_params_roundtrip_witness :
    decodeQuery (construct_params [⟨[97], [32, 200]⟩, ⟨[98], [66]⟩]) =
      ([⟨[97], [32, 200]⟩, ⟨[98], [66]⟩] : List RequestParam).map
        fun p => (p.key, p.value) :=
  construct_params_roundtrip _ (by decide) (by decide)

end Autolab
